import Mathlib

/-!
Verification development for the THEMA market-outlook API client
(`src/API_script.py`).  The Python client is shallowly embedded below:
pandas dataframes holding catalog relations become Lean lists of tuples,
the mutable client object (`combination_query` flag, rejection ledger,
cached master data, token timestamp) becomes explicit state records, the
HTTP transport becomes an oracle function parameter, and the fatal
`print + raise SystemExit` paths become an explicit `Fatal` error type.
Every definition is translated from the source file; comments cite the
Python function each definition embeds.
-/

/-- Decidable equality for `Except`, needed to evaluate the embedded
operations on concrete inputs. -/
instance {ε α : Type} [DecidableEq ε] [DecidableEq α] : DecidableEq (Except ε α) := fun x y =>
  match x, y with
  | .ok a, .ok b =>
    if h : a = b then .isTrue (by rw [h]) else .isFalse (by intro hh; injection hh; exact h (by assumption))
  | .error a, .error b =>
    if h : a = b then .isTrue (by rw [h]) else .isFalse (by intro hh; injection hh; exact h (by assumption))
  | .ok _, .error _ => .isFalse (by intro hh; exact Except.noConfusion hh)
  | .error _, .ok _ => .isFalse (by intro hh; exact Except.noConfusion hh)

/-- A fully-scalar query instance: one concrete JSON payload produced by
`_create_query_combinations`.  The Python payload is a dict; in the
combinatorial paths every relevant key is always present, so a record of
string fields is a faithful embedding (fields a family does not use stay
`""`). -/
structure Inst where
  edition : String
  scenario : String
  region : String
  country : String
  zone : String
  group : String
  indicator : String
  technology : String
  category : String
deriving DecidableEq

/-- One row of the catalog's `countries` relation built by
`__unpack_masterdata_regions_response`: (region, country, zone). -/
abbrev RCZ := String × String × String

/-- One row of the catalog's `groups` relation built by
`__unpack_masterdata_groups_response`: (group, indicator, unit). -/
abbrev GIU := String × String × String

/-- One row of the technology family's `technologies` relation:
a technology together with its list of legal categories. -/
abbrev TechRow := String × List String

/-- The zone column of the `countries` rows matching a given region and
country, as in
`master_data["countries"].loc[(region == r) & (country == c), "zone"]`. -/
def zonesFor (countries : List RCZ) (r c : String) : List String :=
  (countries.filter (fun row => row.1 = r ∧ row.2.1 = c)).map (fun row => row.2.2)

/-- The group column of the `groups` rows matching a given indicator, as in
`master_data["groups"].loc[groups["indicator"] == i, "group"]`. -/
def groupsForIndicator (groups : List GIU) (i : String) : List String :=
  (groups.filter (fun row => row.2.1 = i)).map (fun row => row.1)

/-- The hourly branch of the validity test inside
`__sort_out_invalid_combinations`: the instance zone must occur among the
catalog zones of its (region, country). -/
def hourlyValidB (countries : List RCZ) (j : Inst) : Bool :=
  decide (j.zone ∈ zonesFor countries j.region j.country)

/-- The non-hourly branch of the validity test inside
`__sort_out_invalid_combinations`: the instance group must occur among the
groups of its indicator AND its zone must occur among the catalog zones of
its (region, country). -/
def nonHourlyValidB (countries : List RCZ) (groups : List GIU) (j : Inst) : Bool :=
  decide (j.group ∈ groupsForIndicator groups j.indicator) &&
    decide (j.zone ∈ zonesFor countries j.region j.country)

/-- Keep the elements whose paired boolean is true, as in the Python list
comprehension `[jsons[i] for i in range(len(jsons)) if boolean_filter[i]]`. -/
def keepByFlags (pairs : List (Inst × Bool)) : List Inst :=
  pairs.filterMap (fun p => if p.2 then some p.1 else none)

/-- Embedding of `Thema_data_API.__sort_out_invalid_combinations`: build a
boolean filter over the expanded instances (hourly policy or the combined
group/indicator and zone policy) and keep the flagged instances in order. -/
def sort_out_invalid_combinations (countries : List RCZ) (groups : List GIU)
    (hourly : Bool) (jsons : List Inst) : List Inst :=
  let booleanFilter := jsons.map (fun j =>
    if hourly then hourlyValidB countries j else nonHourlyValidB countries groups j)
  keepByFlags (jsons.zip booleanFilter)

/-- Embedding of `Thema_technology_data_API.__remove_invalid_combinations`:
look the instance technology up in the technology → categories mapping
(`technology_masterdata[tech]`, a KeyError — modelled as `none` — when the
technology is absent) and keep the instance when its category is listed. -/
def remove_invalid_combinations_tech (techRel : List TechRow) : List Inst → Option (List Inst)
  | [] => some []
  | j :: rest =>
    match techRel.find? (fun r => r.1 = j.technology) with
    | none => none
    | some r =>
      match remove_invalid_combinations_tech techRel rest with
      | none => none
      | some t => some (if j.category ∈ r.2 then j :: t else t)

/-- The pair test of the technology filter: the first technology row
matching the instance technology lists the instance category. -/
def techPairValid (techRel : List TechRow) (j : Inst) : Bool :=
  match techRel.find? (fun r => r.1 = j.technology) with
  | some r => decide (j.category ∈ r.2)
  | none => false

/-- The (group, indicator) pairs of a groups relation, as in
`set(zip(groups_masterdata["group"], groups_masterdata["indicator"]))`. -/
def groupIndicatorPairs (groupsRel : List GIU) : List (String × String) :=
  groupsRel.map (fun r => (r.1, r.2.1))

/-- Embedding of `Thema_hydrogen_data_API.__remove_invalid_combinations`:
keep an instance when its (group, indicator) pair is among the zipped
pairs of the groups relation. -/
def remove_invalid_combinations_hydrogen (groupsRel : List GIU) : List Inst → List Inst
  | [] => []
  | j :: rest =>
    if (j.group, j.indicator) ∈ groupIndicatorPairs groupsRel then
      j :: remove_invalid_combinations_hydrogen groupsRel rest
    else
      remove_invalid_combinations_hydrogen groupsRel rest

/-- Cartesian expansion of the hourly scenario template of the spec:
`itertools.product` enumerates values in key order with the last key
varying fastest, so for the template
(scenario, region, country-set, zone-set) the instances are enumerated
country-major, zone-minor.  Embeds `_create_query_combinations` at that
concrete template shape. -/
def expandCountryZone (scenario region : String) (countries zones : List String) : List Inst :=
  countries.flatMap (fun c => zones.map (fun z =>
    { edition := "", scenario := scenario, region := region, country := c, zone := z,
      group := "", indicator := "", technology := "", category := "" }))

/-- Endpoint kinds: the keys of the `rejected_combinations` dict set up in
`Thema_API.__init__`. -/
inductive Kind where
  | Hourly
  | Annual
  | Monthly
  | GO
  | PPA
deriving DecidableEq

/-- The fatal `print + raise SystemExit` paths of the client, plus the two
uncaught Python exceptions its code can raise (`KeyError`,
`AttributeError`), made explicit. -/
inductive Fatal where
  | noData (k : Kind)
  | noValidCombinations (k : Kind)
  | missingFields (fields : List String)
  | missingValues (fields : List String)
  | unexpectedError (status : Nat) (body : String)
  | unknownRegion
  | indexError
  | keyError (key : String)
deriving DecidableEq

/-- Splits a character list on single spaces (helper for the date parse). -/
def splitWordsGo (cur : List Char) : List Char → List (List Char)
  | [] => [cur.reverse]
  | c :: rest =>
    if c = ' ' then cur.reverse :: splitWordsGo [] rest
    else splitWordsGo (c :: cur) rest

/-- Splits a word list on spaces, so that the `strptime` format
`"%B %Y"` corresponds to exactly two words: a month name and digits. -/
def splitWords (cs : List Char) : List (List Char) :=
  splitWordsGo [] cs

/-- Parses a non-empty all-digit word to a number (the `%Y` part of the
`strptime` format). -/
def digitsToNat? (cs : List Char) : Option Nat :=
  if cs = [] then none
  else cs.foldl (fun acc c => match acc with
    | none => none
    | some n => if c.isDigit then some (n * 10 + (c.toNat - 48)) else none) (some 0)

/-- Full English month names, as matched by `strptime`'s `%B`. -/
def monthNum (cs : List Char) : Option Nat :=
  if cs = "January".toList then some 1
  else if cs = "February".toList then some 2
  else if cs = "March".toList then some 3
  else if cs = "April".toList then some 4
  else if cs = "May".toList then some 5
  else if cs = "June".toList then some 6
  else if cs = "July".toList then some 7
  else if cs = "August".toList then some 8
  else if cs = "September".toList then some 9
  else if cs = "October".toList then some 10
  else if cs = "November".toList then some 11
  else if cs = "December".toList then some 12
  else none

/-- Embedding of `Thema_API._transfrom_to_date`: parse an edition string
under the `"%B %Y"` format to a (year, month) pair; any string that does
not parse falls back to the sentinel date January 1970. -/
def transfrom_to_date (s : String) : Nat × Nat :=
  match splitWords s.toList with
  | [m, y] =>
    match monthNum m, digitsToNat? y with
    | some mo, some yr => (yr, mo)
    | _, _ => (1970, 1)
  | _ => (1970, 1)

/-- Strict lexicographic order on (year, month) pairs: the order used when
`__get_newest_edition` sorts the date column. -/
def dateLt (a b : Nat × Nat) : Bool :=
  decide (a.1 < b.1 ∨ (a.1 = b.1 ∧ a.2 < b.2))

/-- Folds a non-empty edition list down to its first date-maximal element:
the element `iloc[0]` of the dataframe after sorting descending by the
parsed date column. -/
def pickNewest (e : String) (es : List String) : String :=
  es.foldl (fun best x =>
    if dateLt (transfrom_to_date best) (transfrom_to_date x) then x else best) e

/-- Embedding of `Thema_data_API.__get_newest_edition` over the catalog's
`editions` relation (rows of (region, edition)).  With a region argument
the relation is first restricted to that region, after a membership check
that is fatal when the region is unknown; without one the whole relation
is used.  An empty selection would make `iloc[0]` raise (modelled as
`indexError`). -/
def get_newest_edition (rel : List (String × String)) (region : Option String) :
    Except Fatal String :=
  match region with
  | some r =>
    if r ∈ rel.map Prod.fst then
      match (rel.filter (fun p => p.1 = r)).map Prod.snd with
      | [] => .error .indexError
      | e :: es => .ok (pickNewest e es)
    else .error .unknownRegion
  | none =>
    match rel.map Prod.snd with
    | [] => .error .indexError
    | e :: es => .ok (pickNewest e es)

/-- A JSON value as the client distinguishes them: a scalar string, a set
of candidate strings, or Python `None`. -/
inductive JVal where
  | str (v : String)
  | vset (l : List String)
  | null
deriving DecidableEq

/-- Python truthiness of a JSON value (`not json[key]`): empty strings,
empty sets and `None` are falsy. -/
def JVal.truthy : JVal → Bool
  | .str v => v ≠ ""
  | .vset l => l ≠ []
  | .null => false

/-- Dict lookup: the value stored under a key, when the key is present. -/
def lookupJ (j : List (String × JVal)) (f : String) : Option JVal :=
  (j.find? (fun p => p.1 = f)).map (fun p => p.2)

/-- The per-field emptiness test of `__validate_json`:
`json[field] is None or json[field] == ""`. -/
def isEmptyVal : Option JVal → Bool
  | some .null => true
  | some (.str v) => v = ""
  | _ => false

/-- Embedding of `Thema_data_API.__validate_json`: first collect every
required field absent from the dict and abort naming all of them; only
when none is absent, collect every required field whose value is `None`
or `""` and abort naming all of those. -/
def validate_json (required : List String) (j : List (String × JVal)) : Option Fatal :=
  let missing := required.filter (fun f => (lookupJ j f).isNone)
  if missing = [] then
    let missingVals := required.filter (fun f => isEmptyVal (lookupJ j f))
    if missingVals = [] then none else some (.missingValues missingVals)
  else some (.missingFields missing)

/-- The required-field lists passed to `__validate_json` by the private
fetchers of `Thema_data_API` (`__get_hourly_data`, `__get_monthly_data`,
`__get_annual_data`, `__get_GO_data`, `__get_PPA_data`). -/
def requiredFields : Kind → List String
  | .Hourly => ["scenario", "region", "country", "zone"]
  | .Annual => ["scenario", "region", "group"]
  | .Monthly => ["scenario", "region", "group"]
  | .GO => ["scenario", "group"]
  | .PPA => ["scenario", "group"]

/-- The dict view of a fully-scalar query instance: every key present,
every value a scalar string. -/
def instToJson (j : Inst) : List (String × JVal) :=
  [("edition", .str j.edition), ("scenario", .str j.scenario), ("region", .str j.region),
   ("country", .str j.country), ("zone", .str j.zone), ("group", .str j.group),
   ("indicator", .str j.indicator), ("technology", .str j.technology),
   ("category", .str j.category)]

/-- Validation of one query instance: `__validate_json` applied to the
instance payload with the endpoint family's required fields. -/
def validate_inst (k : Kind) (j : Inst) : Option Fatal :=
  validate_json (requiredFields k) (instToJson j)

/-- The remote response to one data call, by the time
`_extract_from_response` has run on a success: either a (possibly empty)
row list — a missing or unparsable data key also yields the empty row
list in combinatorial mode — or a non-success status with a body. -/
inductive Resp where
  | success (rows : List Nat)
  | failure (status : Nat) (body : String)
deriving DecidableEq

/-- A merged result table: each payload row stamped with the query
instance that produced it (the `df[key] = value` provenance loop). -/
abbrev Df := List (Nat × Inst)

/-- The `rejected_combinations` dict of `Thema_API.__init__`: one ordered
list of rejected instances per endpoint kind. -/
structure RejLedger where
  hourly : List Inst
  annual : List Inst
  monthly : List Inst
  go : List Inst
  ppa : List Inst
deriving DecidableEq

/-- The empty rejection ledger set up by the constructor. -/
def emptyLedger : RejLedger :=
  { hourly := [], annual := [], monthly := [], go := [], ppa := [] }

/-- `self.rejected_combinations[kind].append(json)`. -/
def RejLedger.add (L : RejLedger) (k : Kind) (j : Inst) : RejLedger :=
  match k with
  | .Hourly => { L with hourly := L.hourly ++ [j] }
  | .Annual => { L with annual := L.annual ++ [j] }
  | .Monthly => { L with monthly := L.monthly ++ [j] }
  | .GO => { L with go := L.go ++ [j] }
  | .PPA => { L with ppa := L.ppa ++ [j] }

/-- The mutable client state the fetch paths read and write: the
`combination_query` flag and the rejection ledger. -/
structure CState where
  combination_query : Bool
  rejected_combinations : RejLedger
deriving DecidableEq

/-- Embedding of the private per-instance fetchers (`__get_hourly_data`
and the structurally identical monthly/annual/GO/PPA ones): validate the
payload, issue the call, and classify the outcome — non-empty rows are
stamped with the instance and returned; an empty payload is ledgered
under the endpoint kind in combinatorial mode and fatal (`noData`)
otherwise; a non-success status is a fatal unexpected error
(`_handle_unexpected_errors`). -/
def fetch_instance (k : Kind) (oracle : Inst → Resp) (st : CState) (j : Inst) :
    Except Fatal (Option Df × CState) :=
  match validate_inst k j with
  | some e => .error e
  | none =>
    match oracle j with
    | .failure status body => .error (.unexpectedError status body)
    | .success rows =>
      if rows = [] then
        if st.combination_query then
          .ok (none, { st with rejected_combinations := st.rejected_combinations.add k j })
        else .error (.noData k)
      else .ok (some (rows.map (fun r => (r, j))), st)

/-- `list(map(self.__get_X_data, jsons))`: run the per-instance fetcher
over every expanded instance in order, threading the client state; a
fatal inside the map aborts it (the surrounding bare `except` is applied
by `batch_fetch`). -/
def run_batch (k : Kind) (oracle : Inst → Resp) (st : CState) :
    List Inst → Except Fatal (List (Option Df) × CState)
  | [] => .ok ([], st)
  | j :: rest =>
    match fetch_instance k oracle st j with
    | .error e => .error e
    | .ok (d, st1) =>
      match run_batch k oracle st1 rest with
      | .error e => .error e
      | .ok (ds, st2) => .ok (d :: ds, st2)

/-- The combinatorial branch of the public fetchers:
`try: pd.concat(list(map(...))) except: ... "No valid combinations"`.
`pd.concat` silently drops the `None` entries produced by ledgered
instances and raises when nothing is left to concatenate; the bare
`except` also catches any exception raised inside the map.  Either way
the batch dies with the distinct `noValidCombinations` error. -/
def batch_fetch (k : Kind) (oracle : Inst → Resp) (st : CState) (jsons : List Inst) :
    Except Fatal (Df × CState) :=
  match run_batch k oracle st jsons with
  | .error _ => .error (.noValidCombinations k)
  | .ok (ds, st1) =>
    match ds.filterMap id with
    | [] => .error (.noValidCombinations k)
    | parts => .ok (parts.flatten, st1)

/-- Result type of `get_rejected_combinations`: either a table of
(endpoint kind, rejected instance) rows, or — faithfully modelling the
source's `return pd.DataFrame`, which returns the *class object*, not an
instantiated empty dataframe — the dataframe class itself. -/
inductive RejResult where
  | table (rows : List (String × Inst))
  | dataFrameClass
deriving DecidableEq

/-- Rows contributed by one ledger kind (`df.insert(0, "Query_type", k)`). -/
def kindRows (name : String) (l : List Inst) : List (String × Inst) :=
  l.map (fun j => (name, j))

/-- Embedding of `Thema_data_API.get_rejected_combinations`: the guard
tests only the Hourly and Annual entries of the ledger; when it passes,
one block of rows per non-empty kind is concatenated in dict key order;
when it fails the function returns `pd.DataFrame` itself. -/
def get_rejected_combinations (L : RejLedger) : RejResult :=
  if L.hourly ≠ [] ∨ L.annual ≠ [] then
    .table (kindRows "Hourly" L.hourly ++ kindRows "Annual" L.annual ++
      kindRows "Monthly" L.monthly ++ kindRows "GO" L.go ++ kindRows "PPA" L.ppa)
  else .dataFrameClass

/-- The master-data slice of the client state relevant to caching: the
`self.master_data` dict (empty ↦ `none`) and a count of remote
master-data fetches performed.  The catalog snapshot itself is abstracted
to an opaque value: the caching claims do not depend on its contents. -/
structure MDState where
  master_data : Option Nat
  fetchCount : Nat
deriving DecidableEq

/-- Embedding of `Thema_data_API.get_master_data` at the caching level:
the body unconditionally issues `requests.get(self.masterdata_url, ...)`
and overwrites `self.master_data` wholesale from the response — there is
no already-loaded check inside the method. -/
def get_master_data (remote : Nat) (s : MDState) : MDState × Nat :=
  ({ master_data := some remote, fetchCount := s.fetchCount + 1 }, remote)

/-- The lazy-load guard at the data-query call sites
(`if not bool(self.master_data): self.get_master_data(with_return=False)`):
fetch only when no snapshot is loaded, otherwise reuse the loaded one. -/
def ensure_master_data (remote : Nat) (s : MDState) : MDState × Nat :=
  match s.master_data with
  | some c => (s, c)
  | none => get_master_data remote s

/-- Outcome of one run of the token-refresh body. -/
inductive TokenOutcome where
  | success (jwt : String)
  | unauthorizedExit
  | attrErrorCrash
  | skipped
deriving DecidableEq

/-- Embedding of `Thema_API._get_authorization_token`: when the token is
within 20 seconds of expiry a login exchange runs; status 200 stores the
token, status 401 aborts with the unauthorized message, and any other
status reaches `self.__handle_unexpected_errors(...)` — a name-mangled
attribute `_Thema_API__handle_unexpected_errors` that does not exist (the
method is defined as `_handle_unexpected_errors`), so Python raises
`AttributeError` before anything is reported. -/
def get_authorization_token (tokenTimestamp validityTime now : Nat)
    (status : Nat) (jwt : String) : TokenOutcome :=
  if tokenTimestamp + validityTime < now + 20 then
    if status = 200 then .success jwt
    else if status = 401 then .unauthorizedExit
    else .attrErrorCrash
  else .skipped

/-- Embedding of `Thema_API._handle_unexpected_errors` (the correctly
named handler used by the data endpoints): reports the status code and
the parsed body, or the raw text when the body does not parse, then
aborts. -/
def handle_unexpected_errors (status : Nat) (parsedBody : Option String)
    (rawText : String) : Fatal :=
  match parsedBody with
  | some b => .unexpectedError status b
  | none => .unexpectedError status rawText

/-- The hourly user input before any defaulting: the five dict keys the
hourly pipeline touches, each either absent (`none`) or a JSON value. -/
structure HourlyInput where
  edition : Option JVal
  scenario : Option JVal
  zone : Option JVal
  country : Option JVal
  region : Option JVal
deriving DecidableEq

/-- The already-loaded master data the hourly pipeline consults. -/
structure MasterData where
  scenarios : List String
  countries : List RCZ
  editionsRel : List (String × String)
deriving DecidableEq

/-- One defaulting step of `get_hourly_data`:
`if key not in json.keys() or not json[key]: json[key] = set(domain)` —
an absent or falsy value is replaced by the full catalog domain as a
candidate set.  (Python builds a `set`; deduplication and hash order are
immaterial to the claims proved here, so the domain is kept as a list.) -/
def fieldOrDefault (v : Option JVal) (domain : List String) : JVal :=
  match v with
  | some jv => if jv.truthy then jv else .vset domain
  | none => .vset domain

/-- The region argument handed to `__get_newest_edition(json["region"])`:
reading `json["region"]` raises `KeyError` when the region key is absent;
a `None` region value takes the method's region-is-None branch (the
global newest edition over the whole relation); a scalar string goes
through the region-restricted lookup; a set value never compares equal
to any entry of the region column, which is the fatal unknown-region
path. -/
def newest_edition_arg (md : MasterData) (region : Option JVal) : Except Fatal JVal :=
  match region with
  | none => .error (.keyError "region")
  | some (.str r) => (get_newest_edition md.editionsRel (some r)).map .str
  | some .null => (get_newest_edition md.editionsRel none).map .str
  | some (.vset _) => .error .unknownRegion

/-- The edition defaulting step of `get_hourly_data` (and of the market
`get_annual_data`/`get_monthly_data`):
`json["edition"] = self.__get_newest_edition(json["region"])` runs when
the edition is absent or falsy. -/
def resolve_edition (md : MasterData) (edition region : Option JVal) : Except Fatal JVal :=
  match edition with
  | some jv => if jv.truthy then .ok jv else newest_edition_arg md region
  | none => newest_edition_arg md region

/-- The hourly payload after all defaulting steps. -/
structure HourlyDefaults where
  edition : JVal
  scenario : JVal
  zone : JVal
  country : JVal
  region : JVal
deriving DecidableEq

/-- The defaulting prefix of `get_hourly_data`: resolve the edition, then
back-fill scenario, zone, country and region from the catalog domains. -/
def hourly_defaults (md : MasterData) (inp : HourlyInput) : Except Fatal HourlyDefaults :=
  (resolve_edition md inp.edition inp.region).map (fun ed =>
    { edition := ed
      scenario := fieldOrDefault inp.scenario md.scenarios
      zone := fieldOrDefault inp.zone (md.countries.map (fun r => r.2.2))
      country := fieldOrDefault inp.country (md.countries.map (fun r => r.2.1))
      region := fieldOrDefault inp.region (md.countries.map (fun r => r.1)) })

/-- `any(map(lambda x: type(x) == set, json.values()))`: the combinatorial
mode trigger. -/
def anySet (d : HourlyDefaults) : Bool :=
  (match d.edition with | .vset _ => true | _ => false) ||
  (match d.scenario with | .vset _ => true | _ => false) ||
  (match d.zone with | .vset _ => true | _ => false) ||
  (match d.country with | .vset _ => true | _ => false) ||
  (match d.region with | .vset _ => true | _ => false)

/-- The candidate list of one defaulted value, as
`_create_query_combinations` sees it (`{x} if not type(x) == set else x`).
After defaulting no value is `None`; that branch is unreachable. -/
def JVal.toCandidates : JVal → List String
  | .str v => [v]
  | .vset l => l
  | .null => []

/-- The scalar carried by a defaulted value in the single-instance branch
(where no value is a set). -/
def JVal.scalar : JVal → String
  | .str v => v
  | _ => ""

/-- `itertools.product` over the hourly payload values in key order
(edition, scenario, zone, country, region — the order the keys are
assigned by the defaulting steps when absent), the last key varying
fastest; each tuple is zipped back into one instance dict. -/
def expand_hourly (d : HourlyDefaults) : List Inst :=
  (d.edition.toCandidates).flatMap (fun ed =>
   (d.scenario.toCandidates).flatMap (fun sc =>
    (d.zone.toCandidates).flatMap (fun z =>
     (d.country.toCandidates).flatMap (fun c =>
      (d.region.toCandidates).map (fun r =>
        { edition := ed, scenario := sc, region := r, country := c, zone := z,
          group := "", indicator := "", technology := "", category := "" })))))

/-- The single-instance payload of the non-combinatorial branch. -/
def singleInst (d : HourlyDefaults) : Inst :=
  { edition := d.edition.scalar, scenario := d.scenario.scalar, region := d.region.scalar,
    country := d.country.scalar, zone := d.zone.scalar,
    group := "", indicator := "", technology := "", category := "" }

/-- Embedding of the public `Thema_data_API.get_hourly_data` (master data
already loaded, token refresh elided — both are modelled separately):
apply the defaulting steps, then either enter combinatorial mode (set
the `combination_query` flag via `_create_query_combinations`, expand,
prune with the hourly policy, fetch the batch) or issue the single
instance directly.  The single branch can return no dataframe at all
when a previously set combinatorial flag routes an empty payload to the
ledger. -/
def get_hourly_data (md : MasterData) (oracle : Inst → Resp) (st : CState)
    (inp : HourlyInput) : Except Fatal (Option Df × CState) :=
  match hourly_defaults md inp with
  | .error e => .error e
  | .ok d =>
    if anySet d then
      let st1 := { st with combination_query := true }
      let jsons := expand_hourly d
      let jsons1 := sort_out_invalid_combinations md.countries [] true jsons
      (batch_fetch .Hourly oracle st1 jsons1).map (fun p => (some p.1, p.2))
    else
      fetch_instance .Hourly oracle st (singleInst d)

/-- The state-mutating operations a client object can undergo, for the
flag-lifetime claim: a combinatorial expansion
(`_create_query_combinations`, which sets `combination_query`) and a
per-instance fetch on any endpoint kind. -/
inductive Op where
  | expandCombinations
  | fetchOp (k : Kind) (j : Inst)
deriving DecidableEq

/-- One operation applied to the client state. -/
def stepOp (oracle : Inst → Resp) (st : CState) : Op → Except Fatal CState
  | .expandCombinations => .ok { st with combination_query := true }
  | .fetchOp k j => (fetch_instance k oracle st j).map (fun p => p.2)

/-- A sequence of operations applied in order, aborting on a fatal. -/
def runOps (oracle : Inst → Resp) (st : CState) : List Op → Except Fatal CState
  | [] => .ok st
  | op :: rest =>
    match stepOp oracle st op with
    | .error e => .error e
    | .ok st1 => runOps oracle st1 rest

/-- A hourly-valid sample instance used by witnesses. -/
def sampleInst : Inst :=
  { edition := "March 2024", scenario := "Base", region := "Nordics", country := "Norway",
    zone := "NO2", group := "", indicator := "", technology := "", category := "" }

/-- A second sample instance, differing in the zone. -/
def sampleInst2 : Inst :=
  { sampleInst with zone := "NO1" }

/-- Client state in combinatorial mode with an empty ledger. -/
def stComb : CState := { combination_query := true, rejected_combinations := emptyLedger }

/-- Client state outside combinatorial mode with an empty ledger. -/
def stSingle : CState := { combination_query := false, rejected_combinations := emptyLedger }

/-- The spec scenario catalog: NO2 belongs only to Norway, SE2 only to
Sweden, both inside the Nordics region. -/
def nordicCatalog : List RCZ :=
  [("Nordics", "Norway", "NO2"), ("Nordics", "Sweden", "SE2")]

/-- The consistent (Norway, NO2) instance of the spec scenario. -/
def instNorwayNO2 : Inst :=
  { edition := "", scenario := "Base", region := "Nordics", country := "Norway",
    zone := "NO2", group := "", indicator := "", technology := "", category := "" }

/-- The consistent (Sweden, SE2) instance of the spec scenario. -/
def instSwedenSE2 : Inst :=
  { instNorwayNO2 with country := "Sweden", zone := "SE2" }

/-- A one-row groups relation containing the pair (GroupA, Ind1). -/
def cexGroups : List GIU := [("GroupA", "Ind1", "EUR")]

/-- A one-row countries relation: only (Nordics, Norway, NO2) is legal. -/
def cexCountries : List RCZ := [("Nordics", "Norway", "NO2")]

/-- An instance whose (group, indicator) pair is in `cexGroups` but whose
zone NO1 makes its (region, country, zone) triple invalid. -/
def cexInstPair : Inst :=
  { edition := "", scenario := "Base", region := "Nordics", country := "Norway",
    zone := "NO1", group := "GroupA", indicator := "Ind1", technology := "", category := "" }

/-- Master data for the defaulting counterexample: one scenario, one legal
(region, country, zone) triple, one edition. -/
def cexMD : MasterData :=
  { scenarios := ["Base"], countries := [("Nordics", "Norway", "NO2")],
    editionsRel := [("Nordics", "March 2024")] }

/-- An hourly request that omits the required `scenario` field entirely
but supplies the other dimensions as scalars. -/
def cexInput : HourlyInput :=
  { edition := some (.str "March 2024"), scenario := none, zone := some (.str "NO2"),
    country := some (.str "Norway"), region := some (.str "Nordics") }

/-- A transport oracle whose every call succeeds with one data row. -/
def cexOracle : Inst → Resp := fun _ => .success [7]

/-- The guard of every defaulting step:
`key not in json.keys() or not json[key]` — the key is absent, or its
value is falsy. -/
def absentOrFalsy (v : Option JVal) : Bool :=
  match v with
  | none => true
  | some jv => !jv.truthy

/-- The negation used as a step hypothesis: the key is present with a
truthy value, so the defaulting step leaves it alone. -/
def presentTruthy (v : Option JVal) : Bool :=
  match v with
  | some jv => jv.truthy
  | none => false

/-- The GO user input before any defaulting: the five dict keys the
`get_GO_data` defaulting prefix touches. -/
structure GoInput where
  edition : Option JVal
  scenario : Option JVal
  zone : Option JVal
  group : Option JVal
  indicator : Option JVal
deriving DecidableEq

/-- The GO payload after the defaulting prefix. -/
structure GoDefaults where
  edition : JVal
  scenario : JVal
  zone : JVal
  group : JVal
  indicator : JVal
deriving DecidableEq

/-- The GO edition defaulting step:
`json["edition"] = self.__get_newest_edition()` — no region argument, so
an absent or falsy edition is replaced by the global newest edition. -/
def go_resolve_edition (md : MasterData) (v : Option JVal) : Except Fatal JVal :=
  match v with
  | some jv => if jv.truthy then .ok jv else (get_newest_edition md.editionsRel none).map .str
  | none => (get_newest_edition md.editionsRel none).map .str

/-- Embedding of the defaulting prefix of `Thema_data_API.get_GO_data`.
The master-data dict built by `get_master_data` has exactly the keys
scenario/groups/editions/countries and the groups dataframe has exactly
the columns group/indicator/unit, so the scenario default
`set(self.master_data["scenarios"]["scenarios"])` raises
`KeyError: scenarios` and the group default
`set(self.master_data["groups"]["groups"])` raises `KeyError: groups`
whenever those steps run; the zone and indicator defaults read existing
columns and succeed. -/
def go_defaults (md : MasterData) (groupsRel : List GIU) (inp : GoInput) :
    Except Fatal GoDefaults :=
  match go_resolve_edition md inp.edition with
  | .error e => .error e
  | .ok ed =>
    match inp.scenario with
    | none => .error (.keyError "scenarios")
    | some sv =>
      if sv.truthy then
        let z := fieldOrDefault inp.zone (md.countries.map (fun r => r.2.2))
        match inp.group with
        | none => .error (.keyError "groups")
        | some gv =>
          if gv.truthy then
            .ok { edition := ed, scenario := sv, zone := z, group := gv,
                  indicator := fieldOrDefault inp.indicator (groupsRel.map (fun r => r.2.1)) }
          else .error (.keyError "groups")
      else .error (.keyError "scenarios")

/-- The market annual user input before any defaulting: the seven dict
keys the `get_annual_data` defaulting prefix touches. -/
structure AnnualInput where
  edition : Option JVal
  scenario : Option JVal
  zone : Option JVal
  country : Option JVal
  region : Option JVal
  indicator : Option JVal
  group : Option JVal
deriving DecidableEq

/-- The annual payload after the defaulting prefix. -/
structure AnnualDefaults where
  edition : JVal
  scenario : JVal
  zone : JVal
  country : JVal
  region : JVal
  indicator : JVal
  group : JVal
deriving DecidableEq

/-- Embedding of the defaulting prefix of `Thema_data_API.get_annual_data`:
edition from `__get_newest_edition(json["region"])`, then scenario, zone,
country, region and indicator back-filled from existing catalog columns,
then the group default `set(self.master_data["groups"]["groups"])` — a
read of a nonexistent groups column that raises `KeyError: groups`
whenever the group key is absent or its value falsy. -/
def annual_defaults (md : MasterData) (groupsRel : List GIU) (inp : AnnualInput) :
    Except Fatal AnnualDefaults :=
  match resolve_edition md inp.edition inp.region with
  | .error e => .error e
  | .ok ed =>
    let sc := fieldOrDefault inp.scenario md.scenarios
    let z := fieldOrDefault inp.zone (md.countries.map (fun r => r.2.2))
    let c := fieldOrDefault inp.country (md.countries.map (fun r => r.2.1))
    let rg := fieldOrDefault inp.region (md.countries.map (fun r => r.1))
    let ind := fieldOrDefault inp.indicator (groupsRel.map (fun r => r.2.1))
    match inp.group with
    | none => .error (.keyError "groups")
    | some gv =>
      if gv.truthy then
        .ok { edition := ed, scenario := sc, zone := z, country := c, region := rg,
              indicator := ind, group := gv }
      else .error (.keyError "groups")

theorem mem_zonesFor (countries : List RCZ) (r c z : String) :
    z ∈ zonesFor countries r c ↔ (r, c, z) ∈ countries := by
  simp only [zonesFor, List.mem_map, List.mem_filter, decide_eq_true_eq]
  constructor
  · rintro ⟨row, ⟨hmem, hr, hc⟩, hz⟩
    have : (r, c, z) = row := by
      obtain ⟨a, b, d⟩ := row
      simp only at hr hc hz
      simp [hr, hc, hz]
    rw [this]; exact hmem
  · intro hmem
    exact ⟨(r, c, z), ⟨hmem, rfl, rfl⟩, rfl⟩

theorem mem_groupsForIndicator (groups : List GIU) (g i : String) :
    g ∈ groupsForIndicator groups i ↔ (g, i) ∈ groupIndicatorPairs groups := by
  simp only [groupsForIndicator, groupIndicatorPairs, List.mem_map, List.mem_filter,
    decide_eq_true_eq]
  constructor
  · rintro ⟨row, ⟨hmem, hi⟩, hg⟩
    exact ⟨row, hmem, by rw [hg, hi]⟩
  · rintro ⟨row, hmem, hpair⟩
    have hg : row.1 = g := congrArg Prod.fst hpair
    have hi : row.2.1 = i := congrArg Prod.snd hpair
    exact ⟨row, ⟨hmem, hi⟩, hg⟩

theorem keepByFlags_zip_map (f : Inst → Bool) (l : List Inst) :
    keepByFlags (l.zip (l.map f)) = l.filter f := by
  induction l with
  | nil => rfl
  | cons a t ih =>
    simp only [List.map_cons, List.zip_cons_cons, keepByFlags, List.filterMap_cons] at *
    by_cases h : f a <;> simp [h, ih, List.filter_cons]

theorem hourlyValidB_eq (countries : List RCZ) (j : Inst) :
    hourlyValidB countries j = decide ((j.region, j.country, j.zone) ∈ countries) := by
  simp [hourlyValidB, mem_zonesFor]

theorem nonHourlyValidB_eq (countries : List RCZ) (groups : List GIU) (j : Inst) :
    nonHourlyValidB countries groups j =
      (decide ((j.group, j.indicator) ∈ groupIndicatorPairs groups) &&
        decide ((j.region, j.country, j.zone) ∈ countries)) := by
  simp [nonHourlyValidB, mem_zonesFor, mem_groupsForIndicator]

theorem dateLt_irrefl (a : Nat × Nat) : dateLt a a = false := by
  simp only [dateLt, decide_eq_false_iff_not]
  omega

theorem dateLt_trans {a b c : Nat × Nat} (h1 : dateLt a b = true) (h2 : dateLt b c = true) :
    dateLt a c = true := by
  simp only [dateLt, decide_eq_true_eq] at *
  omega

theorem dateLt_negtrans {a b c : Nat × Nat} (h1 : dateLt a b = false)
    (h2 : dateLt b c = false) : dateLt a c = false := by
  simp only [dateLt, decide_eq_false_iff_not] at *
  omega

theorem pickNewest_mem (es : List String) (e : String) : pickNewest e es ∈ e :: es := by
  induction es generalizing e with
  | nil => simp [pickNewest]
  | cons x xs ih =>
    have hstep : pickNewest e (x :: xs) =
        pickNewest (if dateLt (transfrom_to_date e) (transfrom_to_date x) then x else e) xs := rfl
    rw [hstep]
    by_cases h : dateLt (transfrom_to_date e) (transfrom_to_date x) = true
    · rw [if_pos h]
      have := ih x
      rcases List.mem_cons.mp this with h1 | h1
      · simp [h1]
      · simp [List.mem_cons, h1]
    · rw [if_neg h]
      have := ih e
      rcases List.mem_cons.mp this with h1 | h1
      · simp [h1]
      · simp [List.mem_cons, h1]

theorem pickNewest_max (es : List String) (e : String) :
    ∀ x ∈ e :: es, dateLt (transfrom_to_date (pickNewest e es)) (transfrom_to_date x) = false := by
  induction es generalizing e with
  | nil =>
    intro x hx
    rcases List.mem_cons.mp hx with h1 | h1
    · rw [h1]; simp [pickNewest, dateLt_irrefl]
    · cases h1
  | cons x0 xs ih =>
    intro x hx
    have hstep : pickNewest e (x0 :: xs) =
        pickNewest (if dateLt (transfrom_to_date e) (transfrom_to_date x0) then x0 else e) xs := rfl
    rw [hstep]
    by_cases hc : dateLt (transfrom_to_date e) (transfrom_to_date x0) = true
    · rw [if_pos hc]
      have hhead := ih x0 x0 (List.mem_cons_self x0 xs)
      rcases List.mem_cons.mp hx with h1 | h1
      · rw [h1]
        cases hme : dateLt (transfrom_to_date (pickNewest x0 xs)) (transfrom_to_date e) with
        | false => rfl
        | true =>
          have := dateLt_trans hme hc
          rw [this] at hhead
          cases hhead
      · exact ih x0 x h1
    · rw [if_neg hc]
      have hc2 : dateLt (transfrom_to_date e) (transfrom_to_date x0) = false :=
        Bool.eq_false_iff.mpr hc
      have hhead := ih e e (List.mem_cons_self e xs)
      rcases List.mem_cons.mp hx with h1 | h1
      · rw [h1]; exact hhead
      · rcases List.mem_cons.mp h1 with h2 | h2
        · rw [h2]; exact dateLt_negtrans hhead hc2
        · exact ih e x (List.mem_cons_of_mem e h2)

theorem fetch_empty_comb (k : Kind) (oracle : Inst → Resp) (st : CState) (j : Inst)
    (hv : validate_inst k j = none) (ho : oracle j = .success [])
    (hf : st.combination_query = true) :
    fetch_instance k oracle st j =
      .ok (none, { st with rejected_combinations := st.rejected_combinations.add k j }) := by
  unfold fetch_instance
  rw [hv, ho]
  simp [hf]

theorem fetch_empty_single (k : Kind) (oracle : Inst → Resp) (st : CState) (j : Inst)
    (hv : validate_inst k j = none) (ho : oracle j = .success [])
    (hf : st.combination_query = false) :
    fetch_instance k oracle st j = .error (.noData k) := by
  unfold fetch_instance
  rw [hv, ho]
  simp [hf]

theorem fetch_flag_preserved (k : Kind) (oracle : Inst → Resp) (st : CState) (j : Inst)
    (d : Option Df) (st1 : CState) (h : fetch_instance k oracle st j = .ok (d, st1)) :
    st1.combination_query = st.combination_query := by
  unfold fetch_instance at h
  split at h
  · exact Except.noConfusion h
  · split at h
    · exact Except.noConfusion h
    · split at h
      · split at h
        · injection h with h1
          injection h1 with h2 h3
          rw [← h3]
        · exact Except.noConfusion h
      · injection h with h1
        injection h1 with h2 h3
        rw [← h3]

theorem fetch_some_nonempty (k : Kind) (oracle : Inst → Resp) (st : CState) (j : Inst)
    (df : Df) (st1 : CState) (h : fetch_instance k oracle st j = .ok (some df, st1)) :
    df ≠ [] := by
  unfold fetch_instance at h
  split at h
  · exact Except.noConfusion h
  · split at h
    · exact Except.noConfusion h
    · split at h
      · split at h
        · injection h with h1
          injection h1 with h2 h3
          exact Option.noConfusion h2
        · exact Except.noConfusion h
      · next hr =>
        injection h with h1
        injection h1 with h2 h3
        have hdf := Option.some.inj h2
        rw [← hdf]
        simp [hr]

theorem run_batch_all_empty (k : Kind) (oracle : Inst → Resp) (jsons : List Inst) :
    ∀ st : CState, st.combination_query = true →
    (∀ j ∈ jsons, validate_inst k j = none) → (∀ j ∈ jsons, oracle j = .success []) →
    ∃ st1, run_batch k oracle st jsons = .ok (jsons.map (fun _ => (none : Option Df)), st1) := by
  induction jsons with
  | nil => intro st hf hv ho; exact ⟨st, rfl⟩
  | cons j rest ih =>
    intro st hf hv ho
    have hstep := fetch_empty_comb k oracle st j (hv j (List.mem_cons_self j rest))
      (ho j (List.mem_cons_self j rest)) hf
    obtain ⟨st1, hrest⟩ := ih { st with rejected_combinations := st.rejected_combinations.add k j }
      hf (fun x hx => hv x (List.mem_cons_of_mem j hx))
      (fun x hx => ho x (List.mem_cons_of_mem j hx))
    refine ⟨st1, ?_⟩
    unfold run_batch
    simp only [hstep, hrest, List.map_cons]

theorem filterMap_id_map_none {α : Type} (l : List α) :
    (l.map (fun _ => (none : Option Df))).filterMap id = [] := by
  induction l with
  | nil => rfl
  | cons a t ih => simp [ih]

theorem run_batch_parts_nonempty (k : Kind) (oracle : Inst → Resp) (jsons : List Inst) :
    ∀ (st : CState) (ds : List (Option Df)) (st1 : CState),
    run_batch k oracle st jsons = .ok (ds, st1) → ∀ d ∈ ds.filterMap id, d ≠ [] := by
  induction jsons with
  | nil =>
    intro st ds st1 h
    unfold run_batch at h
    injection h with h1
    injection h1 with h2 h3
    rw [← h2]
    intro d hd
    cases hd
  | cons j rest ih =>
    intro st ds st1 h
    unfold run_batch at h
    split at h
    · exact Except.noConfusion h
    · next d0 st2 hfi =>
      split at h
      · exact Except.noConfusion h
      · next ds2 st3 hrb =>
        injection h with h1
        injection h1 with h2 h3
        rw [← h2]
        intro d hd
        cases d0 with
        | none =>
          simp only [List.filterMap_cons, id] at hd
          exact ih st2 ds2 st3 hrb d hd
        | some df =>
          simp only [List.filterMap_cons, id] at hd
          rcases List.mem_cons.mp hd with h4 | h4
          · rw [h4]; exact fetch_some_nonempty k oracle st j df st2 hfi
          · exact ih st2 ds2 st3 hrb d h4

theorem stepOp_flag (oracle : Inst → Resp) (st : CState) (op : Op) (st1 : CState)
    (h : stepOp oracle st op = .ok st1) (hf : st.combination_query = true) :
    st1.combination_query = true := by
  cases op with
  | expandCombinations =>
    simp only [stepOp] at h
    injection h with h1
    rw [← h1]
  | fetchOp k j =>
    simp only [stepOp] at h
    cases hfi : fetch_instance k oracle st j <;> rw [hfi] at h
    · exact Except.noConfusion h
    case ok p =>
      simp only [Except.map] at h
      injection h with h1
      rw [← h1]
      rw [fetch_flag_preserved k oracle st j p.1 p.2 (by rw [hfi]), hf]

theorem runOps_flag_mono (oracle : Inst → Resp) (ops : List Op) :
    ∀ st st1 : CState, runOps oracle st ops = .ok st1 →
    st.combination_query = true → st1.combination_query = true := by
  induction ops with
  | nil =>
    intro st st1 h hf
    injection h with h1
    rw [← h1]; exact hf
  | cons op rest ih =>
    intro st st1 h hf
    unfold runOps at h
    split at h
    · exact Except.noConfusion h
    · next st2 hs => exact ih st2 st1 h (stepOp_flag oracle st op st2 hs hf)

theorem sort_out_hourly_eq (countries : List RCZ) (groups : List GIU) (jsons : List Inst) :
    sort_out_invalid_combinations countries groups true jsons =
      jsons.filter (fun j => decide ((j.region, j.country, j.zone) ∈ countries)) := by
  unfold sort_out_invalid_combinations
  simp only [if_true]
  rw [keepByFlags_zip_map]
  simp only [hourlyValidB_eq]

theorem sort_out_nonhourly_eq (countries : List RCZ) (groups : List GIU) (jsons : List Inst) :
    sort_out_invalid_combinations countries groups false jsons =
      jsons.filter (fun j =>
        decide ((j.group, j.indicator) ∈ groupIndicatorPairs groups) &&
        decide ((j.region, j.country, j.zone) ∈ countries)) := by
  unfold sort_out_invalid_combinations
  simp only [Bool.false_eq_true, if_false]
  rw [keepByFlags_zip_map]
  simp only [nonHourlyValidB_eq]

theorem tech_remove_eq (techRel : List TechRow) (jsons : List Inst) :
    remove_invalid_combinations_tech techRel jsons =
      if jsons.all (fun j => (techRel.find? (fun r => r.1 = j.technology)).isSome)
      then some (jsons.filter (techPairValid techRel)) else none := by
  induction jsons with
  | nil => rfl
  | cons j rest ih =>
    unfold remove_invalid_combinations_tech
    cases hfind : techRel.find? (fun r => r.1 = j.technology) with
    | none => simp [List.all_cons, hfind]
    | some r =>
      rw [ih]
      by_cases hall : rest.all (fun j2 => (techRel.find? (fun r2 => r2.1 = j2.technology)).isSome)
      · simp [List.all_cons, hfind, hall, List.filter_cons, techPairValid]
      · simp [List.all_cons, hfind, hall]

theorem hydrogen_remove_eq (groupsRel : List GIU) (jsons : List Inst) :
    remove_invalid_combinations_hydrogen groupsRel jsons =
      jsons.filter (fun j => decide ((j.group, j.indicator) ∈ groupIndicatorPairs groupsRel)) := by
  induction jsons with
  | nil => rfl
  | cons j rest ih =>
    unfold remove_invalid_combinations_hydrogen
    by_cases hmem : (j.group, j.indicator) ∈ groupIndicatorPairs groupsRel
    · simp [hmem, ih, List.filter_cons]
    · simp [hmem, ih, List.filter_cons]

/-- C1: in the hourly (zone-dependent) family, validity pruning keeps an
expanded query instance exactly when its (region, country, zone) triple
is a row of the catalog's countries relation; on the spec's Nordics
template (countries Norway/Sweden crossed with zones NO2/SE2, 4 expanded
instances) exactly the two consistent instances survive, in enumeration
order. -/
theorem hourly_pruning_membership :
    (∀ (countries : List RCZ) (groups : List GIU) (jsons : List Inst),
      sort_out_invalid_combinations countries groups true jsons =
        jsons.filter (fun j => decide ((j.region, j.country, j.zone) ∈ countries)))
    ∧ (expandCountryZone "Base" "Nordics" ["Norway", "Sweden"] ["NO2", "SE2"]).length = 4
    ∧ sort_out_invalid_combinations nordicCatalog [] true
        (expandCountryZone "Base" "Nordics" ["Norway", "Sweden"] ["NO2", "SE2"]) =
        [instNorwayNO2, instSwedenSE2] := by
  refine ⟨sort_out_hourly_eq, by decide, by decide⟩

/-- C2 counterexample: an instance whose (group, indicator) pair is in
the groups relation is nevertheless dropped by the monthly/annual/GO/PPA
pruning because its (region, country, zone) triple is not in the
countries relation — so pair membership alone does not decide survival. -/
theorem pair_pruning_cex :
    ((cexInstPair.group, cexInstPair.indicator) ∈ groupIndicatorPairs cexGroups) ∧
    sort_out_invalid_combinations cexCountries cexGroups false [cexInstPair] = [] := by
  decide

/-- C2 (amended): the monthly/annual/GO/PPA pruning keeps an instance iff
both its (group, indicator) pair is in the groups relation and its
(region, country, zone) triple is in the countries relation; the
technology pruning keeps an instance iff the category list of its
technology row contains its category (crashing — `none` — when some
instance's technology has no row); the hydrogen pruning keeps an
instance iff its (group, indicator) pair is in the zipped groups
relation. -/
theorem pair_pruning_characterization :
    (∀ (countries : List RCZ) (groups : List GIU) (jsons : List Inst),
      sort_out_invalid_combinations countries groups false jsons =
        jsons.filter (fun j =>
          decide ((j.group, j.indicator) ∈ groupIndicatorPairs groups) &&
          decide ((j.region, j.country, j.zone) ∈ countries)))
    ∧ (∀ (techRel : List TechRow) (jsons : List Inst),
      remove_invalid_combinations_tech techRel jsons =
        if jsons.all (fun j => (techRel.find? (fun r => r.1 = j.technology)).isSome)
        then some (jsons.filter (techPairValid techRel)) else none)
    ∧ (∀ (groupsRel : List GIU) (jsons : List Inst),
      remove_invalid_combinations_hydrogen groupsRel jsons =
        jsons.filter (fun j =>
          decide ((j.group, j.indicator) ∈ groupIndicatorPairs groupsRel))) :=
  ⟨sort_out_nonhourly_eq, tech_remove_eq, hydrogen_remove_eq⟩

/-- C3: a successful response with an empty (or unparsable) data payload
is ledgered under the endpoint kind and the batch moves on to the
remaining instances when `combination_query` is set, and is the fatal
`noData` abort when it is not. -/
theorem empty_payload_ledger_or_fatal :
    (∀ (k : Kind) (oracle : Inst → Resp) (st : CState) (j : Inst),
      validate_inst k j = none → oracle j = .success [] → st.combination_query = true →
      fetch_instance k oracle st j =
        .ok (none, { st with rejected_combinations := st.rejected_combinations.add k j }))
    ∧ (∀ (k : Kind) (oracle : Inst → Resp) (st : CState) (j : Inst),
      validate_inst k j = none → oracle j = .success [] → st.combination_query = false →
      fetch_instance k oracle st j = .error (.noData k))
    ∧ (∀ (k : Kind) (oracle : Inst → Resp) (st : CState) (j : Inst) (rest : List Inst),
      validate_inst k j = none → oracle j = .success [] → st.combination_query = true →
      run_batch k oracle st (j :: rest) =
        (run_batch k oracle
          { st with rejected_combinations := st.rejected_combinations.add k j } rest).map
          (fun p => ((none : Option Df) :: p.1, p.2))) := by
  refine ⟨fetch_empty_comb, fetch_empty_single, ?_⟩
  intro k oracle st j rest hv ho hf
  have hstep := fetch_empty_comb k oracle st j hv ho hf
  simp only [run_batch, hstep]
  cases hrb : run_batch k oracle
      { st with rejected_combinations := st.rejected_combinations.add k j } rest with
  | error e => rfl
  | ok q => obtain ⟨ds, st2⟩ := q; rfl

/-- C3 witness: on a concrete hourly-valid instance whose call succeeds
with no rows, the combinatorial-mode client ledgers it and the
single-mode client dies with the `noData` fatal. -/
theorem empty_payload_ledger_or_fatal_witness :
    fetch_instance .Hourly (fun _ => Resp.success []) stComb sampleInst =
      .ok (none, { stComb with
        rejected_combinations := stComb.rejected_combinations.add .Hourly sampleInst }) ∧
    fetch_instance .Hourly (fun _ => Resp.success []) stSingle sampleInst =
      .error (.noData .Hourly) :=
  ⟨empty_payload_ledger_or_fatal.1 .Hourly (fun _ => Resp.success []) stComb sampleInst
      (by decide) rfl rfl,
   empty_payload_ledger_or_fatal.2.1 .Hourly (fun _ => Resp.success []) stSingle sampleInst
      (by decide) rfl rfl⟩

/-- C4: a combinatorial batch with more than one instance in which every
instance yields an empty payload dies with the `noValidCombinations`
fatal; that fatal is distinct from the single-instance `noData` fatal;
and a batch never returns an empty merged table. -/
theorem all_empty_batch_fatal :
    (∀ (k : Kind) (oracle : Inst → Resp) (st : CState) (jsons : List Inst),
      1 < jsons.length → st.combination_query = true →
      (∀ j ∈ jsons, validate_inst k j = none) → (∀ j ∈ jsons, oracle j = .success []) →
      batch_fetch k oracle st jsons = .error (.noValidCombinations k))
    ∧ (∀ k1 k2 : Kind, Fatal.noValidCombinations k1 ≠ Fatal.noData k2)
    ∧ (∀ (k : Kind) (oracle : Inst → Resp) (st : CState) (jsons : List Inst) (t : Df)
        (st1 : CState), batch_fetch k oracle st jsons = .ok (t, st1) → t ≠ []) := by
  refine ⟨?_, ?_, ?_⟩
  · intro k oracle st jsons hlen hf hv ho
    obtain ⟨st1, hrb⟩ := run_batch_all_empty k oracle jsons st hf hv ho
    unfold batch_fetch
    rw [hrb]
    simp only [filterMap_id_map_none]
  · intro k1 k2 h
    exact Fatal.noConfusion h
  · intro k oracle st jsons t st1 h
    unfold batch_fetch at h
    split at h
    · exact Except.noConfusion h
    · rename_i ds st2 hrb
      split at h
      · exact Except.noConfusion h
      · rename_i hne
        injection h with h1
        injection h1 with h2 h3
        have hps := run_batch_parts_nonempty k oracle jsons st ds st2 hrb
        rw [← h2]
        cases hparts : ds.filterMap id with
        | nil => exact absurd hparts hne
        | cons p ps =>
          have hpne := hps p (by rw [hparts]; exact List.mem_cons_self p ps)
          intro hcon
          have hcon2 : p ++ ps.flatten = [] := hcon
          rcases List.append_eq_nil.mp hcon2 with ⟨hc1, hc2⟩
          exact hpne hc1

/-- C4 witness: a two-instance batch whose every call returns an empty
payload dies with `noValidCombinations`. -/
theorem all_empty_batch_fatal_witness :
    batch_fetch .Hourly (fun _ => Resp.success []) stComb [sampleInst, sampleInst2] =
      .error (.noValidCombinations .Hourly) :=
  all_empty_batch_fatal.1 .Hourly (fun _ => Resp.success []) stComb [sampleInst, sampleInst2]
    (by decide) rfl (by decide) (by decide)

/-- C5: whenever the (optionally region-restricted) edition selection is
non-empty, the newest-edition lookup returns an edition of that selection
that no other selected edition beats under the parsed Month-Year date,
unparsable strings being dated January 1970; concretely, among
March 2022 / garbage / September 2022 it returns September 2022. -/
theorem newest_edition_latest :
    (∀ (rel : List (String × String)) (r : String),
      r ∈ rel.map Prod.fst →
      ∃ e, get_newest_edition rel (some r) = .ok e ∧ (r, e) ∈ rel ∧
        ∀ p ∈ rel, p.1 = r →
          dateLt (transfrom_to_date e) (transfrom_to_date p.2) = false)
    ∧ (∀ rel : List (String × String), rel ≠ [] →
      ∃ e, get_newest_edition rel none = .ok e ∧ e ∈ rel.map Prod.snd ∧
        ∀ p ∈ rel, dateLt (transfrom_to_date e) (transfrom_to_date p.2) = false)
    ∧ get_newest_edition
        [("Nordics", "March 2022"), ("Nordics", "garbage"), ("Nordics", "September 2022")]
        none = .ok "September 2022"
    ∧ transfrom_to_date "garbage" = (1970, 1) := by
  refine ⟨?_, ?_, by decide, by decide⟩
  · intro rel r hr
    have hred : get_newest_edition rel (some r) =
        match (rel.filter (fun p => p.1 = r)).map Prod.snd with
        | [] => Except.error Fatal.indexError
        | e :: es => Except.ok (pickNewest e es) := by
      unfold get_newest_edition
      exact if_pos hr
    cases hsel : (rel.filter (fun p => p.1 = r)).map Prod.snd with
    | nil =>
      exfalso
      rcases List.mem_map.mp hr with ⟨q, hq, hq1⟩
      have hqf : q ∈ rel.filter (fun p => p.1 = r) :=
        List.mem_filter.mpr ⟨hq, by simp [hq1]⟩
      have hq2 : q.2 ∈ (rel.filter (fun p => p.1 = r)).map Prod.snd :=
        List.mem_map.mpr ⟨q, hqf, rfl⟩
      rw [hsel] at hq2
      cases hq2
    | cons e es =>
      have hred2 : get_newest_edition rel (some r) = .ok (pickNewest e es) := by
        rw [hred, hsel]
      refine ⟨pickNewest e es, hred2, ?_, ?_⟩
      · have hmem := pickNewest_mem es e
        rw [← hsel] at hmem
        rcases List.mem_map.mp hmem with ⟨q, hqf, hq2⟩
        rcases List.mem_filter.mp hqf with ⟨hq, hq1⟩
        have hq1e : q.1 = r := by simpa using hq1
        have hqe : (r, pickNewest e es) = q := by
          obtain ⟨a, b⟩ := q
          simp only at hq1e hq2
          simp [hq1e, hq2]
        rw [hqe]
        exact hq
      · intro p hp hp1
        have hp2 : p.2 ∈ (rel.filter (fun q => q.1 = r)).map Prod.snd :=
          List.mem_map.mpr ⟨p, List.mem_filter.mpr ⟨hp, by simp [hp1]⟩, rfl⟩
        rw [hsel] at hp2
        exact pickNewest_max es e p.2 hp2
  · intro rel hrel
    unfold get_newest_edition
    cases hsel : rel.map Prod.snd with
    | nil =>
      exfalso
      cases rel with
      | nil => exact hrel rfl
      | cons a t => exact List.noConfusion hsel
    | cons e es =>
      refine ⟨pickNewest e es, rfl, ?_, ?_⟩
      · exact pickNewest_mem es e
      · intro p hp
        have hp2 : p.2 ∈ rel.map Prod.snd := List.mem_map.mpr ⟨p, hp, rfl⟩
        rw [hsel] at hp2
        exact pickNewest_max es e p.2 hp2

/-- C5 witness: the region-restricted lookup applied to a concrete
two-edition relation for region A. -/
theorem newest_edition_latest_witness :
    ∃ e, get_newest_edition [("A", "March 2022"), ("A", "September 2022")] (some "A") =
        .ok e ∧ ("A", e) ∈ [("A", "March 2022"), ("A", "September 2022")] ∧
      ∀ p ∈ [("A", "March 2022"), ("A", "September 2022")], p.1 = "A" →
        dateLt (transfrom_to_date e) (transfrom_to_date p.2) = false :=
  newest_edition_latest.1 [("A", "March 2022"), ("A", "September 2022")] "A" (by decide)

/-- C6 counterexample: an hourly request that omits the required
`scenario` field does not fail with a missing-required-field error —
defaulting runs first, back-fills scenario with the full catalog domain,
and the request completes successfully through the combinatorial path. -/
theorem validation_after_defaulting_cex :
    cexInput.scenario = none ∧ "scenario" ∈ requiredFields .Hourly ∧
    get_hourly_data cexMD cexOracle stSingle cexInput =
      .ok (some [(7, sampleInst)], stComb) := by
  decide

/-- A defaulting step whose guard fires replaces the value with the full
catalog domain as a candidate set. -/
theorem fieldOrDefault_of_absentOrFalsy (v : Option JVal) (dom : List String)
    (h : absentOrFalsy v = true) : fieldOrDefault v dom = .vset dom := by
  cases v with
  | none => rfl
  | some jv =>
    simp only [absentOrFalsy] at h
    simp only [Bool.not_eq_eq_eq_not, Bool.not_true] at h
    simp [fieldOrDefault, h]

/-- C6 (amended): required-field validation runs per expanded instance
only after defaulting, never before it.  In the hourly family every
required field (scenario, region, country, zone) has a catalog-backed
default, so an hourly input whose required field is absent or falsy is
back-filled with the full catalog domain instead of rejected.  In the GO
family the scenario default reads the nonexistent master-data key
`scenarios` and the group default reads the nonexistent groups column
`groups`, so an absent or falsy GO scenario or group crashes the
defaulting with a `KeyError` instead of being back-filled or named in a
missing-field error; the annual family's group default has the same
broken column read.  When the per-instance validator does see a payload
with absent required keys it aborts naming every absent key at once, and
when all keys are present but some values are `None`/empty it aborts
naming every such key at once. -/
theorem validate_json_reports_all :
    (∀ (required : List String) (j : List (String × JVal)),
      (∃ f ∈ required, lookupJ j f = none) →
      validate_json required j =
        some (.missingFields (required.filter (fun f => (lookupJ j f).isNone))))
    ∧ (∀ (required : List String) (j : List (String × JVal)),
      (∀ f ∈ required, (lookupJ j f).isSome) →
      (∃ f ∈ required, isEmptyVal (lookupJ j f) = true) →
      validate_json required j =
        some (.missingValues (required.filter (fun f => isEmptyVal (lookupJ j f)))))
    ∧ (∀ (md : MasterData) (inp : HourlyInput) (d : HourlyDefaults),
      hourly_defaults md inp = .ok d →
      (absentOrFalsy inp.scenario = true → d.scenario = .vset md.scenarios)
      ∧ (absentOrFalsy inp.zone = true →
          d.zone = .vset (md.countries.map (fun r => r.2.2)))
      ∧ (absentOrFalsy inp.country = true →
          d.country = .vset (md.countries.map (fun r => r.2.1)))
      ∧ (absentOrFalsy inp.region = true →
          d.region = .vset (md.countries.map (fun r => r.1))))
    ∧ (∀ (md : MasterData) (groupsRel : List GIU) (inp : GoInput),
      presentTruthy inp.edition = true → absentOrFalsy inp.scenario = true →
      go_defaults md groupsRel inp = .error (.keyError "scenarios"))
    ∧ (∀ (md : MasterData) (groupsRel : List GIU) (inp : GoInput),
      presentTruthy inp.edition = true → presentTruthy inp.scenario = true →
      absentOrFalsy inp.group = true →
      go_defaults md groupsRel inp = .error (.keyError "groups"))
    ∧ (∀ (md : MasterData) (groupsRel : List GIU) (inp : AnnualInput),
      presentTruthy inp.edition = true → absentOrFalsy inp.group = true →
      annual_defaults md groupsRel inp = .error (.keyError "groups")) := by
  refine ⟨?_, ?_, ?_, ?_, ?_, ?_⟩
  · intro required j hex
    rcases hex with ⟨f, hf, hnone⟩
    have hmem : f ∈ required.filter (fun g => (lookupJ j g).isNone) :=
      List.mem_filter.mpr ⟨hf, by simp [hnone]⟩
    have hne : required.filter (fun g => (lookupJ j g).isNone) ≠ [] :=
      List.ne_nil_of_mem hmem
    unfold validate_json
    rw [if_neg hne]
  · intro required j hall hex
    rcases hex with ⟨f, hf, hempty⟩
    have hmiss : required.filter (fun g => (lookupJ j g).isNone) = [] := by
      rw [List.filter_eq_nil_iff]
      intro g hg
      have := hall g hg
      simp [Option.isNone_iff_eq_none]
      intro hcon
      rw [hcon] at this
      simp at this
    have hmem : f ∈ required.filter (fun g => isEmptyVal (lookupJ j g)) :=
      List.mem_filter.mpr ⟨hf, hempty⟩
    have hne : required.filter (fun g => isEmptyVal (lookupJ j g)) ≠ [] :=
      List.ne_nil_of_mem hmem
    unfold validate_json
    rw [if_pos hmiss, if_neg hne]
  · intro md inp d hdef
    unfold hourly_defaults at hdef
    cases hre : resolve_edition md inp.edition inp.region with
    | error e => rw [hre] at hdef; exact Except.noConfusion hdef
    | ok ed =>
      rw [hre] at hdef
      simp only [Except.map] at hdef
      injection hdef with h1
      refine ⟨fun h => ?_, fun h => ?_, fun h => ?_, fun h => ?_⟩ <;>
        rw [← h1] <;> exact fieldOrDefault_of_absentOrFalsy _ _ h
  · intro md groupsRel inp hed hsc
    cases he : inp.edition with
    | none => rw [he] at hed; simp [presentTruthy] at hed
    | some jv =>
      rw [he] at hed
      simp only [presentTruthy] at hed
      cases hs : inp.scenario with
      | none => simp [go_defaults, go_resolve_edition, he, hs, hed]
      | some sv =>
        rw [hs] at hsc
        simp only [absentOrFalsy] at hsc
        simp only [Bool.not_eq_eq_eq_not, Bool.not_true] at hsc
        simp [go_defaults, go_resolve_edition, he, hs, hed, hsc]
  · intro md groupsRel inp hed hscT hg
    cases he : inp.edition with
    | none => rw [he] at hed; simp [presentTruthy] at hed
    | some jv =>
      rw [he] at hed
      simp only [presentTruthy] at hed
      cases hs : inp.scenario with
      | none => rw [hs] at hscT; simp [presentTruthy] at hscT
      | some sv =>
        rw [hs] at hscT
        simp only [presentTruthy] at hscT
        cases hgr : inp.group with
        | none => simp [go_defaults, go_resolve_edition, he, hs, hgr, hed, hscT]
        | some gv =>
          rw [hgr] at hg
          simp only [absentOrFalsy] at hg
          simp only [Bool.not_eq_eq_eq_not, Bool.not_true] at hg
          simp [go_defaults, go_resolve_edition, he, hs, hgr, hed, hscT, hg]
  · intro md groupsRel inp hed hg
    cases he : inp.edition with
    | none => rw [he] at hed; simp [presentTruthy] at hed
    | some jv =>
      rw [he] at hed
      simp only [presentTruthy] at hed
      cases hgr : inp.group with
      | none => simp [annual_defaults, resolve_edition, he, hgr, hed]
      | some gv =>
        rw [hgr] at hg
        simp only [absentOrFalsy] at hg
        simp only [Bool.not_eq_eq_eq_not, Bool.not_true] at hg
        simp [annual_defaults, resolve_edition, he, hgr, hed, hg]

/-- C6 amended-claim witness: a payload missing the scenario key is
rejected naming exactly the absent field; a GO request with a truthy
edition but omitted scenario crashes reading the `scenarios` key; an
annual request with a truthy edition but omitted group crashes reading
the `groups` column. -/
theorem validate_json_reports_all_witness :
    validate_json ["scenario", "region"] [("region", JVal.str "Nordics")] =
      some (.missingFields ["scenario"]) ∧
    go_defaults cexMD []
      { edition := some (.str "March 2024"), scenario := none, zone := none,
        group := none, indicator := none } = .error (.keyError "scenarios") ∧
    annual_defaults cexMD []
      { edition := some (.str "March 2024"), scenario := none, zone := none,
        country := none, region := some (.str "Nordics"), indicator := none,
        group := none } = .error (.keyError "groups") := by
  refine ⟨?_, ?_, ?_⟩
  · have h := validate_json_reports_all.1 ["scenario", "region"]
      [("region", JVal.str "Nordics")] ⟨"scenario", by decide, by decide⟩
    exact h.trans (by decide)
  · exact validate_json_reports_all.2.2.2.1 cexMD []
      { edition := some (.str "March 2024"), scenario := none, zone := none,
        group := none, indicator := none } (by decide) (by decide)
  · exact validate_json_reports_all.2.2.2.2.2 cexMD []
      { edition := some (.str "March 2024"), scenario := none, zone := none,
        country := none, region := some (.str "Nordics"), indicator := none,
        group := none } (by decide) (by decide)


/-- C7: evaluating the token-acquisition embedding — with an expired
token, a 401 response aborts as unauthorized with no retry (the claim's
first half, which the code satisfies), while any other non-success
status (e.g. 500) crashes with `AttributeError` instead of reporting the
status and body the way the correctly-named handler would. -/
theorem token_unexpected_status_eval :
    get_authorization_token 0 600 1000 401 "x" = .unauthorizedExit ∧
    get_authorization_token 0 600 1000 500 "x" = .attrErrorCrash ∧
    get_authorization_token 0 600 1000 200 "tok" = .success "tok" ∧
    handle_unexpected_errors 500 none "Server Error" =
      .unexpectedError 500 "Server Error" := by
  decide

/-- C8 counterexample: calling `get_master_data` twice performs two
remote fetches — the method body fetches unconditionally, so the second
call is a duplicate fetch, refuting the claimed no-duplicate-fetch
idempotence of the load operation itself. -/
theorem master_data_duplicate_fetch_cex :
    (get_master_data 5 (MDState.mk none 0)).1.fetchCount = 1 ∧
    (get_master_data 5 (get_master_data 5 (MDState.mk none 0)).1).1.fetchCount = 2 := by
  decide

/-- C8 (amended): `get_master_data` itself re-fetches and replaces the
snapshot wholesale on every call; the no-duplicate-fetch behaviour lives
in the lazy guard at the data-query call sites, which fetches only when
no snapshot is loaded — running the guard twice returns the same state
and the same snapshot as running it once. -/
theorem master_data_guard_idempotent :
    (∀ (remote : Nat) (s : MDState),
      ensure_master_data remote ((ensure_master_data remote s).1) =
        ensure_master_data remote s)
    ∧ (∀ (remote : Nat) (s : MDState),
      (get_master_data remote s).1.fetchCount = s.fetchCount + 1)
    ∧ (∀ (remote : Nat) (s : MDState),
      (get_master_data remote s).1.master_data = some remote) := by
  refine ⟨?_, fun remote s => rfl, fun remote s => rfl⟩
  intro remote s
  cases hm : s.master_data with
  | some c => simp [ensure_master_data, get_master_data, hm]
  | none => simp [ensure_master_data, get_master_data, hm]

/-- C9: evaluating `get_rejected_combinations` — a ledger whose only
entries sit under the Monthly kind is not exposed (the guard checks only
Hourly and Annual), and the empty ledger also yields the dataframe class
object rather than an instantiated empty table; a ledger with an Hourly
entry is exposed as a tagged table. -/
theorem rejected_ledger_gate_eval :
    get_rejected_combinations { emptyLedger with monthly := [sampleInst] } =
      .dataFrameClass ∧
    get_rejected_combinations emptyLedger = .dataFrameClass ∧
    get_rejected_combinations { emptyLedger with hourly := [sampleInst] } =
      .table [("Hourly", sampleInst)] := by
  decide

/-- C10: `combination_query` is set by a combinatorial expansion and no
modelled operation ever resets it — any operation sequence run from a
state with the flag set ends (when it does not abort) in a state with
the flag still set; consequently a later single-instance fetch whose
payload is empty is ledgered and yields no result instead of dying with
the `noData` fatal. -/
theorem combination_flag_never_reset :
    (∀ (oracle : Inst → Resp) (st : CState),
      stepOp oracle st .expandCombinations = .ok { st with combination_query := true })
    ∧ (∀ (oracle : Inst → Resp) (ops : List Op) (st st1 : CState),
      runOps oracle st ops = .ok st1 →
      st.combination_query = true → st1.combination_query = true)
    ∧ (∀ (oracle : Inst → Resp) (k : Kind) (j : Inst) (st : CState),
      st.combination_query = true → validate_inst k j = none → oracle j = .success [] →
      stepOp oracle st (.fetchOp k j) =
        .ok { st with rejected_combinations := st.rejected_combinations.add k j }) := by
  refine ⟨fun oracle st => rfl, fun oracle ops => runOps_flag_mono oracle ops, ?_⟩
  intro oracle k j st hf hv ho
  simp only [stepOp]
  rw [fetch_empty_comb k oracle st j hv ho hf]
  rfl

/-- C10 witness: in a flag-set state, a concrete empty-payload fetch is
ledgered, not fatal. -/
theorem combination_flag_never_reset_witness :
    stepOp (fun _ => Resp.success []) stComb (.fetchOp .Hourly sampleInst) =
      .ok { stComb with
        rejected_combinations := stComb.rejected_combinations.add .Hourly sampleInst } :=
  combination_flag_never_reset.2.2 (fun _ => Resp.success []) .Hourly sampleInst stComb
    rfl (by decide) rfl
